import Mathlib

/-!
Verification of the annotation/interaction engine of the Manga-Weaver-AI
repository, shallowly embedded from the TypeScript sources
`src/hooks/useAnnotations.ts` (annotation store, history, interaction state
machine, compositor) and `src/utils/canvas.ts` (hit testing, resize handles,
cursor mapping).

Modelling conventions:
* JavaScript numbers are modelled as rationals (`ℚ`).  The two places the
  source divides or takes a square root — the text-pin distance test and the
  arrow line-distance test — are algebraically rewritten to multiplications:
  `sqrt s < r ↔ s < r^2` for `s ≥ 0 < r`, and `|N| / sqrt D < 5 ↔ N^2 < 25*D`
  for `D > 0`.  A zero denominator (`D = 0`, a degenerate arrow) makes the
  JavaScript expression `0/0 = NaN`, and `NaN < 5` is `false`; the embedding
  makes that case an explicit `false` branch.
* React `useState` cells become fields of an explicit `EngineState` record;
  each event handler becomes a state-to-state function.  Functional
  `setState(prev => ...)` updates and the `currentAnnotations` ref both read
  the current value, so sequential record updates are faithful.
* `nanoid()` is modelled by passing the fresh id as an argument.
* Purely visual effects (canvas drawing, `canvas.style.cursor`) have no
  state counterpart and are omitted.
-/

namespace Weaver

/-- Tools, from `types.ts`: `type Tool = 'arrow' | 'rectangle' | 'circle' | 'text'`.
Note the type in `src/hooks/useAnnotations.ts` has no `null` member; the
initial state is `useState<Tool>('arrow')`. -/
inductive Tool where
  | arrow
  | rectangle
  | circle
  | text
deriving DecidableEq

/-- `type Action = 'none' | 'drawing' | 'moving' | 'resizing'` (useAnnotations.ts:9). -/
inductive Action where
  | none
  | drawing
  | moving
  | resizing
deriving DecidableEq

/-- `type ResizeHandle = 'tl' | 'tr' | 'bl' | 'br' | 'start' | 'end'`
(useAnnotations.ts:10).  The TS literal `'end'` is a Lean keyword, written
`end_` here. -/
inductive ResizeHandle where
  | tl
  | tr
  | bl
  | br
  | start
  | end_
deriving DecidableEq

/-- The tagged union `AnnotationObject` from `types.ts`: `Arrow`, `Rectangle`
and `Circle` carry `x y width height`; `Arrow` additionally carries the raw
endpoint 4-tuple `points`; `TextAnnotation` carries `x y` and the text. -/
inductive AnnotationObject where
  | arrow (id : String) (x y width height : ℚ) (color : String)
      (points : ℚ × ℚ × ℚ × ℚ)
  | rectangle (id : String) (x y width height : ℚ) (color : String)
  | circle (id : String) (x y width height : ℚ) (color : String)
  | text (id : String) (x y : ℚ) (color : String) (txt : String)
deriving DecidableEq

/-- The `id` field, common to all variants. -/
def annId : AnnotationObject → String
  | .arrow id _ _ _ _ _ _ => id
  | .rectangle id _ _ _ _ _ => id
  | .circle id _ _ _ _ _ => id
  | .text id _ _ _ _ => id

/-- The `x` field, common to all variants. -/
def annX : AnnotationObject → ℚ
  | .arrow _ x _ _ _ _ _ => x
  | .rectangle _ x _ _ _ _ => x
  | .circle _ x _ _ _ _ => x
  | .text _ x _ _ _ => x

/-- The `y` field, common to all variants. -/
def annY : AnnotationObject → ℚ
  | .arrow _ _ y _ _ _ _ => y
  | .rectangle _ _ y _ _ _ => y
  | .circle _ _ y _ _ _ => y
  | .text _ _ y _ _ => y

/-- `shape.type === 'arrow'`. -/
def isArrowAnn : AnnotationObject → Bool
  | .arrow _ _ _ _ _ _ _ => true
  | _ => false

/-- `shape.type === 'text'`. -/
def isTextAnn : AnnotationObject → Bool
  | .text _ _ _ _ _ => true
  | _ => false

/-- `ann.type === 'text' && ann.text.trim() === ''`. -/
def isEmptyTextPin : AnnotationObject → Bool
  | .text _ _ _ _ t => t.trim = ""
  | _ => false

/-- `const ANNOTATION_RADIUS = 15` (utils/canvas.ts:3). -/
def ANNOTATION_RADIUS : ℚ := 15

/-- `const HANDLE_SIZE = 8` (utils/canvas.ts:4). -/
def HANDLE_SIZE : ℚ := 8

/-- `isPointInShape` from `utils/canvas.ts`.
* text: `sqrt ((px-x)^2 + (py-y)^2) < ANNOTATION_RADIUS`, stated squared
  (square root is strictly monotone on nonnegatives).
* arrow: perpendicular distance from the line through the two endpoints,
  `|N| / sqrt D < 5` with `N = (y2-y1)·px - (x2-x1)·py + x2·y1 - y2·x1` and
  `D = (y2-y1)^2 + (x2-x1)^2`, stated squared; `D = 0` gives `0/0 = NaN` in
  JavaScript and `NaN < 5` is `false`, hence the explicit guard.  The result
  is conjoined with the endpoint bounding box expanded by a 5 unit buffer.
* rectangle/circle: the axis-aligned bounding box test. -/
def isPointInShape (p : ℚ × ℚ) (shape : AnnotationObject) : Bool :=
  match shape with
  | .text _ x y _ _ =>
      decide ((p.1 - x) ^ 2 + (p.2 - y) ^ 2 < ANNOTATION_RADIUS ^ 2)
  | .arrow _ _ _ _ _ _ (x1, y1, x2, y2) =>
      let N := (y2 - y1) * p.1 - (x2 - x1) * p.2 + x2 * y1 - y2 * x1
      let D := (y2 - y1) ^ 2 + (x2 - x1) ^ 2
      let distLt5 := decide (D ≠ 0) && decide (N ^ 2 < 5 ^ 2 * D)
      let buffer : ℚ := 5
      let inX := decide (min x1 x2 - buffer ≤ p.1 ∧ p.1 ≤ max x1 x2 + buffer)
      let inY := decide (min y1 y2 - buffer ≤ p.2 ∧ p.2 ≤ max y1 y2 + buffer)
      distLt5 && inX && inY
  | .rectangle _ x y w h _ =>
      decide (x ≤ p.1 ∧ p.1 ≤ x + w ∧ y ≤ p.2 ∧ p.2 ≤ y + h)
  | .circle _ x y w h _ =>
      decide (x ≤ p.1 ∧ p.1 ≤ x + w ∧ y ≤ p.2 ∧ p.2 ≤ y + h)

/-- `getResizeHandle` from `utils/canvas.ts`, as the ordered key/value list
produced by `Object.entries`: `{start, end}` for an arrow, `{tl, tr, bl, br}`
otherwise.  `getCursorForPosition` casts a `TextAnnotation` with
`shape as ShapeObject`: its `width`/`height` are `undefined`, so every corner
involving them has a `NaN` coordinate and can never pass a `<` comparison;
those handles are modelled as `none`, while `tl = {x, y}` stays real. -/
def getResizeHandle (shape : AnnotationObject) : List (String × Option (ℚ × ℚ)) :=
  match shape with
  | .arrow _ _ _ _ _ _ (x1, y1, x2, y2) =>
      [("start", some (x1, y1)), ("end", some (x2, y2))]
  | .rectangle _ x y w h _ =>
      [("tl", some (x, y)), ("tr", some (x + w, y)),
       ("bl", some (x, y + h)), ("br", some (x + w, y + h))]
  | .circle _ x y w h _ =>
      [("tl", some (x, y)), ("tr", some (x + w, y)),
       ("bl", some (x, y + h)), ("br", some (x + w, y + h))]
  | .text _ x y _ _ =>
      [("tl", some (x, y)), ("tr", none), ("bl", none), ("br", none)]

/-- `Math.abs(point.x - value.x) < HANDLE_SIZE / 2 && Math.abs(point.y - value.y) < HANDLE_SIZE / 2`;
a handle with a `NaN` coordinate (`none`) never matches. -/
def nearHandle (p : ℚ × ℚ) (hpos : Option (ℚ × ℚ)) : Bool :=
  match hpos with
  | some (hx, hy) =>
      decide (|p.1 - hx| < HANDLE_SIZE / 2 ∧ |p.2 - hy| < HANDLE_SIZE / 2)
  | none => false

/-- The `for (const [key, value] of Object.entries(handles))` loop of
`getCursorForPosition`: the first entry within the hit box returns a cursor
(`grab` for an arrow, the two diagonal resize cursors for box corners);
an entry that matches no returning case falls through to the next one. -/
def cursorLoop (p : ℚ × ℚ) (isArr : Bool) :
    List (String × Option (ℚ × ℚ)) → Option String
  | [] => none
  | (key, hpos) :: rest =>
      if nearHandle p hpos then
        if isArr then some "grab"
        else if key = "tl" ∨ key = "br" then some "nwse-resize"
        else if key = "tr" ∨ key = "bl" then some "nesw-resize"
        else cursorLoop p isArr rest
      else cursorLoop p isArr rest

/-- `getCursorForPosition` from `utils/canvas.ts`: the handle loop, then
`isPointInShape` ⇒ `'move'`, else `null`. -/
def getCursorForPosition (p : ℚ × ℚ) (shape : AnnotationObject) : Option String :=
  match cursorLoop p (isArrowAnn shape) (getResizeHandle shape) with
  | some c => some c
  | none => if isPointInShape p shape then some "move" else none

/-- The `handleKey as ResizeHandle` cast in `startDrawing` case 2. -/
def keyToResizeHandle : String → Option ResizeHandle
  | "tl" => some .tl
  | "tr" => some .tr
  | "bl" => some .bl
  | "br" => some .br
  | "start" => some .start
  | "end" => some .end_
  | _ => none

/-- The `useState` cells of `useAnnotations` (useAnnotations.ts:17-30).
`startPoint` and `currentAnnotations` are refs; `currentAnnotations` always
mirrors `annotations` (synced by the effect at lines 32-34), so only
`annotations` is kept. -/
structure EngineState where
  tool : Tool
  color : String
  annotations : List AnnotationObject
  activeAnnotationId : Option String
  selectedId : Option String
  action : Action
  resizeHandle : Option ResizeHandle
  history : List (List AnnotationObject)
  historyIndex : Int
  startPoint : ℚ × ℚ
deriving DecidableEq

/-- The initial hook state: `tool = 'arrow'`, `color = '#ef4444'`, empty
store, no selection, `history = []`, `historyIndex = -1`. -/
def engineInit : EngineState where
  tool := .arrow
  color := "#ef4444"
  annotations := []
  activeAnnotationId := none
  selectedId := none
  action := .none
  resizeHandle := none
  history := []
  historyIndex := -1
  startPoint := (0, 0)

/-- `pushToHistory` (useAnnotations.ts:38-43): truncate after the current
index (`history.slice(0, historyIndex + 1)`), append the snapshot, point the
index at it.  (`Int.toNat` clamps exactly like `slice` for the in-range
indices `historyIndex ≥ -1` that actually occur.) -/
def pushToHistory (s : EngineState) (createdAnns : List AnnotationObject) :
    EngineState :=
  let newHistory := s.history.take (s.historyIndex + 1).toNat ++ [createdAnns]
  { s with history := newHistory, historyIndex := (newHistory.length : Int) - 1 }

/-- `handleUndo` (useAnnotations.ts:45-57): with `historyIndex > 0` restore
snapshot `historyIndex - 1` and decrement; otherwise (index 0 or the fresh
`-1`) reset to the empty list and clear the history.  Both branches clear
selection and the active editor.  (`getD` with default `[]` models the
subscript `history[newIndex]`, which is in range whenever `historyIndex`
respects the history invariant.) -/
def handleUndo (s : EngineState) : EngineState :=
  let s1 :=
    if 0 < s.historyIndex then
      let newIndex := s.historyIndex - 1
      { s with annotations := s.history.getD newIndex.toNat [],
               historyIndex := newIndex }
    else
      { s with annotations := [], history := [], historyIndex := -1 }
  { s1 with selectedId := none, activeAnnotationId := none }

/-- `clearCanvas` (useAnnotations.ts:187-193). -/
def clearCanvas (s : EngineState) : EngineState :=
  { s with annotations := [], selectedId := none, activeAnnotationId := none,
           history := [], historyIndex := -1 }

/-- The Delete/Backspace handler (useAnnotations.ts:199-217): with a
selection (and focus outside text inputs, an environment condition), filter
out the selected annotation, snapshot, and deselect. -/
def handleDelete (s : EngineState) : EngineState :=
  match s.selectedId with
  | none => s
  | some sel =>
      let createdAnns := s.annotations.filter (fun a => annId a ≠ sel)
      let s1 := { s with annotations := createdAnns }
      let s2 := pushToHistory s1 createdAnns
      { s2 with selectedId := none }

/-- Case 3 of `startDrawing` (useAnnotations.ts:273-309), clicking empty
canvas space: deselect; with the text tool, atomically drop the previously
active pin if its trimmed text is empty, append a fresh empty pin, snapshot,
and open its editor; with a shape tool, close any text editor, enter
`drawing`, and append a zero-size shape (an arrow with both endpoints at the
click point). -/
def emptySpaceClick (s : EngineState) (offsetX offsetY : ℚ) (freshId : String) :
    EngineState :=
  let s := { s with selectedId := none }
  match s.tool with
  | Tool.text =>
      let createdAnn := AnnotationObject.text freshId offsetX offsetY s.color ""
      let nextAnnotations :=
        match s.annotations.find? (fun a => some (annId a) = s.activeAnnotationId) with
        | some prevActive =>
            if isEmptyTextPin prevActive then
              s.annotations.filter (fun a => some (annId a) ≠ s.activeAnnotationId)
            else s.annotations
        | none => s.annotations
      let finalAnnotations := nextAnnotations ++ [createdAnn]
      let s1 := { s with annotations := finalAnnotations }
      let s2 := pushToHistory s1 finalAnnotations
      { s2 with activeAnnotationId := some freshId, selectedId := some freshId,
                action := Action.none }
  | Tool.arrow =>
      let s1 := { s with activeAnnotationId := none, action := Action.drawing }
      let createdAnn := AnnotationObject.arrow freshId offsetX offsetY 0 0
        s1.color (offsetX, offsetY, offsetX, offsetY)
      { s1 with annotations := s1.annotations ++ [createdAnn],
                selectedId := some freshId }
  | Tool.rectangle =>
      let s1 := { s with activeAnnotationId := none, action := Action.drawing }
      let createdAnn := AnnotationObject.rectangle freshId offsetX offsetY 0 0 s1.color
      { s1 with annotations := s1.annotations ++ [createdAnn],
                selectedId := some freshId }
  | Tool.circle =>
      let s1 := { s with activeAnnotationId := none, action := Action.drawing }
      let createdAnn := AnnotationObject.circle freshId offsetX offsetY 0 0 s1.color
      { s1 with annotations := s1.annotations ++ [createdAnn],
                selectedId := some freshId }

/-- `startDrawing` (useAnnotations.ts:219-310).  It opens with an
unconditional `nativeEvent.preventDefault()` (line 223, no state effect),
records the start point, then:
case 1 — the topmost annotation hit (reverse insertion order): for a text
pin different from the active one, drop the active pin if empty and activate
the clicked one; for a shape, close the editor; select and enter `moving`.
case 2 — no hit, but the selected non-text shape reports a non-`move`
cursor: enter `resizing`, record the matched handle key, close the editor.
case 3 — `emptySpaceClick`. -/
def startDrawing (s : EngineState) (offsetX offsetY : ℚ) (freshId : String) :
    EngineState :=
  let s := { s with startPoint := (offsetX, offsetY) }
  match s.annotations.reverse.find? (fun ann => isPointInShape (offsetX, offsetY) ann) with
  | some clicked =>
      let s1 :=
        if isTextAnn clicked then
          if some (annId clicked) ≠ s.activeAnnotationId then
            let anns :=
              match s.annotations.find? (fun a => some (annId a) = s.activeAnnotationId) with
              | some prevActive =>
                  if isEmptyTextPin prevActive then
                    s.annotations.filter (fun a => some (annId a) ≠ s.activeAnnotationId)
                  else s.annotations
              | none => s.annotations
            { s with annotations := anns, activeAnnotationId := some (annId clicked) }
          else s
        else { s with activeAnnotationId := none }
      { s1 with selectedId := some (annId clicked), action := Action.moving }
  | none =>
      match s.annotations.find? (fun a => some (annId a) = s.selectedId) with
      | some sa =>
          if !isTextAnn sa then
            match getCursorForPosition (offsetX, offsetY) sa with
            | some c =>
                if c ≠ "move" then
                  let handleKey :=
                    (getResizeHandle sa).find? (fun kv => nearHandle (offsetX, offsetY) kv.2)
                  { s with action := Action.resizing,
                           resizeHandle := handleKey.bind (fun kv => keyToResizeHandle kv.1),
                           activeAnnotationId := none }
                else emptySpaceClick s offsetX offsetY freshId
            | none => emptySpaceClick s offsetX offsetY freshId
          else emptySpaceClick s offsetX offsetY freshId
      | none => emptySpaceClick s offsetX offsetY freshId

/-- The corner arithmetic of the `resizing` switch (useAnnotations.ts:353-358);
a `start`/`end` handle on a box matches no case and leaves it unchanged. -/
def resizeBox (rh : ResizeHandle) (x y w h offsetX offsetY dx dy : ℚ) :
    ℚ × ℚ × ℚ × ℚ :=
  match rh with
  | .tl => (offsetX, offsetY, w - dx, h - dy)
  | .tr => (x, offsetY, offsetX - x, h - dy)
  | .bl => (offsetX, y, w - dx, offsetY - y)
  | .br => (x, y, offsetX - x, offsetY - y)
  | .start => (x, y, w, h)
  | .end_ => (x, y, w, h)

/-- `draw` (useAnnotations.ts:312-369).  In `none` only the CSS cursor is
set (no state change).  Otherwise the selected annotation is updated:
`moving` translates by the delta since the last frame (and re-bases
`startPoint`); `drawing` rubber-bands width/height (or the arrow endpoint)
from the gesture start; `resizing` applies the recorded handle. -/
def draw (s : EngineState) (offsetX offsetY : ℚ) : EngineState :=
  if s.action = Action.none then s
  else
    let dx := offsetX - s.startPoint.1
    let dy := offsetY - s.startPoint.2
    let anns := s.annotations.map (fun ann =>
      if some (annId ann) ≠ s.selectedId then ann
      else if s.action = Action.moving then
        match ann with
        | .arrow id x y w h c (x1, y1, x2, y2) =>
            .arrow id (x + dx) (y + dy) w h c (x1 + dx, y1 + dy, x2 + dx, y2 + dy)
        | .rectangle id x y w h c => .rectangle id (x + dx) (y + dy) w h c
        | .circle id x y w h c => .circle id (x + dx) (y + dy) w h c
        | .text id x y c t => .text id (x + dx) (y + dy) c t
      else if s.action = Action.drawing then
        match ann with
        | .arrow id x y w h c _ =>
            .arrow id x y w h c (s.startPoint.1, s.startPoint.2, offsetX, offsetY)
        | .rectangle id x y _ _ c => .rectangle id x y dx dy c
        | .circle id x y _ _ c => .circle id x y dx dy c
        | .text id x y c t => .text id x y c t
      else
        match s.resizeHandle, ann with
        | some rh, .arrow id x y w h c (x1, y1, x2, y2) =>
            if rh = ResizeHandle.start then .arrow id x y w h c (offsetX, offsetY, x2, y2)
            else if rh = ResizeHandle.end_ then .arrow id x y w h c (x1, y1, offsetX, offsetY)
            else .arrow id x y w h c (x1, y1, x2, y2)
        | some rh, .rectangle id x y w h c =>
            let (nx, ny, nw, nh) := resizeBox rh x y w h offsetX offsetY dx dy
            .rectangle id nx ny nw nh c
        | some rh, .circle id x y w h c =>
            let (nx, ny, nw, nh) := resizeBox rh x y w h offsetX offsetY dx dy
            .circle id nx ny nw nh c
        | _, ann => ann)
    let s1 := { s with annotations := anns }
    if s1.action = Action.moving then { s1 with startPoint := (offsetX, offsetY) } else s1

/-- The commit normalization of `finishDrawing` (useAnnotations.ts:377-395):
an arrow's `x y width height` become the bounding box of its endpoint
4-tuple; a rectangle/circle with negative width/height is flipped so `x,y`
is the top-left corner; a text pin is untouched. -/
def normalizeAnn : AnnotationObject → AnnotationObject
  | .arrow id _ _ _ _ c (x1, y1, x2, y2) =>
      .arrow id (min x1 x2) (min y1 y2) |x1 - x2| |y1 - y2| c (x1, y1, x2, y2)
  | .rectangle id x y w h c =>
      let xw := if w < 0 then (x + w, -w) else (x, w)
      let yh := if h < 0 then (y + h, -h) else (y, h)
      .rectangle id xw.1 yh.1 xw.2 yh.2 c
  | .circle id x y w h c =>
      let xw := if w < 0 then (x + w, -w) else (x, w)
      let yh := if h < 0 then (y + h, -h) else (y, h)
      .circle id xw.1 yh.1 xw.2 yh.2 c
  | .text id x y c t => .text id x y c t

/-- `finishDrawing` (useAnnotations.ts:371-403), bound to both pointer-up
and pointer-leave: a no-op in `none`; otherwise normalize the selected
annotation, snapshot the result, and return to `none`.  (It does not touch
`tool`.) -/
def finishDrawing (s : EngineState) : EngineState :=
  if s.action = Action.none then s
  else
    let finalAnnotations := s.annotations.map (fun ann =>
      if some (annId ann) = s.selectedId then normalizeAnn ann else ann)
    let s1 := { s with annotations := finalAnnotations }
    let s2 := pushToHistory s1 finalAnnotations
    { s2 with action := Action.none, resizeHandle := none }

/-- The asynchronous outcome of `new Image()` loading inside
`getAnnotatedImage`: `failure` is the `onerror` path; `success` carries
whether `canvasRef.current` and the 2D context were obtainable. -/
inductive ImageLoadOutcome where
  | failure
  | success (canvasPresent : Bool) (ctxPresent : Bool)
deriving DecidableEq

/-- Abstract stand-in for `tempCanvas.toDataURL('image/png')`: the pixel
composition itself is outside the embedding; only `some` versus the `null`
result matters for the verified properties. -/
def compositeDataURL (includeAnnotations : Bool) (anns : List AnnotationObject) :
    String :=
  "data:image/png;" ++ toString includeAnnotations ++ toString anns.length

/-- `getAnnotatedImage` (useAnnotations.ts:405-439): clear selection and the
active editor, wait a frame, then load the base image; `onerror` resolves
`null`, a missing canvas or context resolves `null`, otherwise the flattened
raster is produced.  The promise executor only ever calls `resolve`, so the
function is total and never rejects; it returns the new state and the
resolved value. -/
def getAnnotatedImage (s : EngineState) (outcome : ImageLoadOutcome)
    (includeAnnotations : Bool) : EngineState × Option String :=
  let s1 := { s with selectedId := none, activeAnnotationId := none }
  match outcome with
  | .failure => (s1, none)
  | .success false _ => (s1, none)
  | .success true false => (s1, none)
  | .success true true => (s1, some (compositeDataURL includeAnnotations s1.annotations))

/-- `ComicDisplay.tsx:54` invokes the hook as
`useAnnotations(activePage.imageUrl, editingTextElementId)`, passing the
focused external text-element editor's id — but the hook signature
(useAnnotations.ts:12) accepts only `imageUrl`, so `startDrawing` never sees
the signal: the pointer-down handler is the same function whatever the
caller's editing state is. -/
def startDrawingUnderExternalEdit (_editingTextElementId : Option String)
    (s : EngineState) (offsetX offsetY : ℚ) (freshId : String) : EngineState :=
  startDrawing s offsetX offsetY freshId

/-- Line 223 of useAnnotations.ts runs `nativeEvent.preventDefault()`
unconditionally, before any test whatsoever. -/
def startDrawingCallsPreventDefault (_s : EngineState) (_offsetX _offsetY : ℚ) :
    Bool :=
  true

/-- The history invariant the spec states in §3: the index is a valid
position of the snapshot sequence or `-1`, and `-1` only occurs in the truly
empty state (no snapshots and no annotations). -/
def HistoryInv (s : EngineState) : Prop :=
  -1 ≤ s.historyIndex ∧ s.historyIndex ≤ (s.history.length : Int) - 1 ∧
    (s.historyIndex = -1 → s.history = [] ∧ s.annotations = [])

/-- A pointer-move sequence: `draw` applied to each successive offset. -/
def applyMoves (s : EngineState) (moves : List (ℚ × ℚ)) : EngineState :=
  moves.foldl (fun t m => draw t m.1 m.2) s

/-- States reachable from the fresh engine by completed user gestures:
a full pointer gesture (`startDrawing`, any pointer-moves, then the
`finishDrawing` commit — covering draw, move and resize commits as well as
text-pin creation), keyboard deletion, `undo()`, and re-arming the tool. -/
inductive Reach : EngineState → Prop where
  | init : Reach engineInit
  | gesture (x y : ℚ) (id : String) (moves : List (ℚ × ℚ)) {s : EngineState} :
      Reach s → Reach (finishDrawing (applyMoves (startDrawing s x y id) moves))
  | delete {s : EngineState} : Reach s → Reach (handleDelete s)
  | undo {s : EngineState} : Reach s → Reach (handleUndo s)
  | retool (t : Tool) {s : EngineState} : Reach s → Reach { s with tool := t }

lemma historyInv_of_fields {s t : EngineState} (h1 : t.history = s.history)
    (h2 : t.historyIndex = s.historyIndex) (h3 : t.annotations = s.annotations)
    (hs : HistoryInv s) : HistoryInv t := by
  unfold HistoryInv at hs ⊢
  rw [h1, h2, h3]
  exact hs

lemma pushToHistory_historyIndex (s : EngineState) (l : List AnnotationObject) :
    (pushToHistory s l).historyIndex = ((pushToHistory s l).history.length : Int) - 1 := by
  simp [pushToHistory]

lemma pushToHistory_length_pos (s : EngineState) (l : List AnnotationObject) :
    0 < (pushToHistory s l).history.length := by
  simp [pushToHistory]

lemma historyInv_pushToHistory (s : EngineState) (l : List AnnotationObject) :
    HistoryInv (pushToHistory s l) := by
  have h1 := pushToHistory_historyIndex s l
  have h2 := pushToHistory_length_pos s l
  refine ⟨?_, ?_, ?_⟩
  · rw [h1]; omega
  · rw [h1]
  · intro h3
    rw [h1] at h3
    omega

lemma handleUndo_cleared {s : EngineState} (h : ¬ 0 < s.historyIndex) :
    handleUndo s = { s with annotations := [], history := [], historyIndex := -1,
                            selectedId := none, activeAnnotationId := none } := by
  unfold handleUndo
  rw [if_neg h]

lemma handleUndo_stepped {s : EngineState} (h : 0 < s.historyIndex) :
    handleUndo s = { s with annotations := s.history.getD (s.historyIndex - 1).toNat [],
                            historyIndex := s.historyIndex - 1,
                            selectedId := none, activeAnnotationId := none } := by
  unfold handleUndo
  rw [if_pos h]

lemma historyInv_handleUndo {s : EngineState} (hs : HistoryInv s) :
    HistoryInv (handleUndo s) := by
  obtain ⟨hA, hB, hC⟩ := hs
  by_cases h : 0 < s.historyIndex
  · rw [handleUndo_stepped h]
    refine ⟨?_, ?_, ?_⟩ <;> dsimp only
    · omega
    · omega
    · intro h3
      exact absurd h3 (by omega)
  · rw [handleUndo_cleared h]
    exact ⟨by dsimp only; omega, by dsimp only; simp, fun _ => ⟨rfl, rfl⟩⟩

lemma historyInv_handleDelete {s : EngineState} (hs : HistoryInv s) :
    HistoryInv (handleDelete s) := by
  unfold handleDelete
  cases hsel : s.selectedId with
  | none => exact hs
  | some sel =>
      exact historyInv_of_fields rfl rfl rfl (historyInv_pushToHistory _ _)

lemma draw_action (s : EngineState) (x y : ℚ) : (draw s x y).action = s.action := by
  unfold draw
  split
  · rfl
  · dsimp only
    split <;> rfl

lemma draw_of_action_none {s : EngineState} (x y : ℚ) (h : s.action = Action.none) :
    draw s x y = s := by
  unfold draw
  rw [if_pos h]

lemma applyMoves_action (s : EngineState) (moves : List (ℚ × ℚ)) :
    (applyMoves s moves).action = s.action := by
  induction moves generalizing s with
  | nil => rfl
  | cons m rest ih =>
      have h := ih (draw s m.1 m.2)
      simp only [applyMoves, List.foldl_cons] at h ⊢
      rw [h, draw_action]

lemma applyMoves_of_action_none {s : EngineState} (moves : List (ℚ × ℚ))
    (h : s.action = Action.none) : applyMoves s moves = s := by
  induction moves with
  | nil => rfl
  | cons m rest ih =>
      simp only [applyMoves, List.foldl_cons] at ih ⊢
      rw [draw_of_action_none m.1 m.2 h, ih]

lemma historyInv_finishDrawing_of_ne {s : EngineState} (h : s.action ≠ Action.none) :
    HistoryInv (finishDrawing s) := by
  unfold finishDrawing
  rw [if_neg h]
  exact historyInv_of_fields rfl rfl rfl (historyInv_pushToHistory _ _)

lemma finishDrawing_of_action_none {s : EngineState} (h : s.action = Action.none) :
    finishDrawing s = s := by
  unfold finishDrawing
  rw [if_pos h]

lemma emptySpaceClick_cases (s : EngineState) (x y : ℚ) (id : String) :
    (emptySpaceClick s x y id).action ≠ Action.none ∨
      HistoryInv (emptySpaceClick s x y id) := by
  unfold emptySpaceClick
  cases s.tool with
  | text =>
      right
      exact historyInv_of_fields rfl rfl rfl (historyInv_pushToHistory _ _)
  | arrow => left; simp
  | rectangle => left; simp
  | circle => left; simp

lemma startDrawing_cases (s : EngineState) (x y : ℚ) (id : String) :
    (startDrawing s x y id).action ≠ Action.none ∨
      HistoryInv (startDrawing s x y id) := by
  unfold startDrawing
  dsimp only
  split
  · left; simp
  · split
    · split
      · split
        · split
          · left; simp
          · exact emptySpaceClick_cases _ x y id
        · exact emptySpaceClick_cases _ x y id
      · exact emptySpaceClick_cases _ x y id
    · exact emptySpaceClick_cases _ x y id

lemma historyInv_reach {s : EngineState} (h : Reach s) : HistoryInv s := by
  induction h with
  | init => exact ⟨by simp [engineInit], by simp [engineInit], by simp [engineInit]⟩
  | @gesture x y id moves s hr ih =>
      rcases startDrawing_cases s x y id with hact | hinv
      · exact historyInv_finishDrawing_of_ne (by rw [applyMoves_action]; exact hact)
      · by_cases hnone : (startDrawing s x y id).action = Action.none
        · rw [applyMoves_of_action_none moves hnone,
            finishDrawing_of_action_none hnone]
          exact hinv
        · exact historyInv_finishDrawing_of_ne (by rw [applyMoves_action]; exact hnone)
  | delete hr ih => exact historyInv_handleDelete ih
  | undo hr ih => exact historyInv_handleUndo ih
  | retool t hr ih => exact historyInv_of_fields rfl rfl rfl ih

lemma undo_iterate_empty :
    ∀ (k : Nat) (s : EngineState), HistoryInv s → s.historyIndex < (k : Int) →
      (handleUndo^[k] s).annotations = [] := by
  intro k
  induction k with
  | zero =>
      intro s hs hk
      obtain ⟨hA, hB, hC⟩ := hs
      have h1 : s.historyIndex = -1 := by omega
      simpa using (hC h1).2
  | succ k ih =>
      intro s hs hk
      rw [Function.iterate_succ_apply]
      by_cases h : 0 < s.historyIndex
      · refine ih _ (historyInv_handleUndo hs) ?_
        rw [handleUndo_stepped h]
        push_cast
        omega
      · refine ih _ (historyInv_handleUndo hs) ?_
        rw [handleUndo_cleared h]
        simp
        omega

/-- C1: for every engine state respecting the history invariant, `undo()`
with `historyIndex > 0` restores snapshot `historyIndex - 1`, decrements the
index, and leaves the history sequence unchanged; with `historyIndex = 0`
(or an empty history) it resets the annotation list to `[]`, the history to
`[]`, and the index to `-1`. -/
theorem c1_undo_semantics (s : EngineState) (hs : HistoryInv s) :
    (0 < s.historyIndex →
      (handleUndo s).annotations = s.history.getD (s.historyIndex - 1).toNat [] ∧
      (handleUndo s).historyIndex = s.historyIndex - 1 ∧
      (handleUndo s).history = s.history) ∧
    ((s.historyIndex = 0 ∨ s.history = []) →
      (handleUndo s).annotations = [] ∧ (handleUndo s).history = [] ∧
      (handleUndo s).historyIndex = -1) := by
  obtain ⟨hA, hB, hC⟩ := hs
  constructor
  · intro h
    rw [handleUndo_stepped h]
    exact ⟨rfl, rfl, rfl⟩
  · intro h
    have h0 : ¬ 0 < s.historyIndex := by
      rcases h with h | h
      · omega
      · rw [h] at hB
        simp at hB
        omega
    rw [handleUndo_cleared h0]
    exact ⟨rfl, rfl, rfl⟩

/-- A concrete state with two snapshots and index 1, for the c1 witness. -/
def c1demoState : EngineState :=
  { engineInit with history := [[], []], historyIndex := 1 }

/-- Witness: `c1_undo_semantics` instantiated at `c1demoState`. -/
theorem c1_undo_semantics_witness :
    HistoryInv c1demoState ∧
    ((0 < c1demoState.historyIndex →
      (handleUndo c1demoState).annotations =
        c1demoState.history.getD (c1demoState.historyIndex - 1).toNat [] ∧
      (handleUndo c1demoState).historyIndex = c1demoState.historyIndex - 1 ∧
      (handleUndo c1demoState).history = c1demoState.history) ∧
     ((c1demoState.historyIndex = 0 ∨ c1demoState.history = []) →
      (handleUndo c1demoState).annotations = [] ∧
      (handleUndo c1demoState).history = [] ∧
      (handleUndo c1demoState).historyIndex = -1)) :=
  ⟨by unfold HistoryInv; decide, c1_undo_semantics c1demoState (by unfold HistoryInv; decide)⟩

/-- C2: starting from the empty engine, after any sequence of completed
gestures (draw/move/resize commits, text-pin creation, deletion) interleaved
with `undo()` (and tool re-arming), the history index lies in
`[-1, history.length - 1]`, and `undo()` applied `history.length` times
empties the annotation list. -/
theorem c2_history_invariant (s : EngineState) (hr : Reach s) :
    (-1 ≤ s.historyIndex ∧ s.historyIndex ≤ (s.history.length : Int) - 1) ∧
    (handleUndo^[s.history.length] s).annotations = [] := by
  have hs := historyInv_reach hr
  refine ⟨⟨hs.1, hs.2.1⟩, ?_⟩
  refine undo_iterate_empty s.history.length s hs ?_
  have h := hs.2.1
  omega

/-- The state after one completed arrow-draw gesture on the fresh engine,
for the c2 witness. -/
def c2demoState : EngineState :=
  finishDrawing (applyMoves (startDrawing engineInit 20 30 "w1") [])

/-- Witness: `c2_history_invariant` at a concrete reachable state. -/
theorem c2_history_invariant_witness :
    (-1 ≤ c2demoState.historyIndex ∧
      c2demoState.historyIndex ≤ (c2demoState.history.length : Int) - 1) ∧
    (handleUndo^[c2demoState.history.length] c2demoState).annotations = [] :=
  c2_history_invariant c2demoState (Reach.gesture 20 30 "w1" [] Reach.init)

lemma flipNeg_eq (x w : ℚ) :
    (if w < 0 then (x + w, -w) else (x, w)) = (min x (x + w), |w|) := by
  rcases lt_or_le w 0 with hw | hw
  · rw [if_pos hw, min_eq_right (by linarith), abs_of_neg hw]
  · rw [if_neg (not_lt.mpr hw), min_eq_left (by linarith), abs_of_nonneg hw]

/-- C3: when a gesture commits (`finishDrawing`, bound to pointer-up and
pointer-leave), the selected annotation is normalized: a rectangle/circle
gets `x,y` moved to the true top-left (`min x (x+w)`) with non-negative
`|w|,|h|`; an arrow gets its `x,y,width,height` recomputed as the bounding
box of its endpoint 4-tuple.  The spec example — drawing a rectangle from
(300,300) to (100,100) — commits as x=100, y=100, width=200, height=200. -/
theorem c3_commit_normalization :
    (∀ s : EngineState, s.action ≠ Action.none →
      (finishDrawing s).annotations =
        s.annotations.map (fun ann =>
          if some (annId ann) = s.selectedId then normalizeAnn ann else ann)) ∧
    (∀ (id : String) (x y w h : ℚ) (c : String),
      normalizeAnn (AnnotationObject.rectangle id x y w h c) =
        AnnotationObject.rectangle id (min x (x + w)) (min y (y + h)) |w| |h| c) ∧
    (∀ (id : String) (x y w h : ℚ) (c : String),
      normalizeAnn (AnnotationObject.circle id x y w h c) =
        AnnotationObject.circle id (min x (x + w)) (min y (y + h)) |w| |h| c) ∧
    (∀ (id : String) (x y w h : ℚ) (c : String) (x1 y1 x2 y2 : ℚ),
      normalizeAnn (AnnotationObject.arrow id x y w h c (x1, y1, x2, y2)) =
        AnnotationObject.arrow id (min x1 x2) (min y1 y2) |x1 - x2| |y1 - y2| c
          (x1, y1, x2, y2)) ∧
    (finishDrawing (draw (startDrawing { engineInit with tool := Tool.rectangle }
        300 300 "r1") 100 100)).annotations =
      [AnnotationObject.rectangle "r1" 100 100 200 200 "#ef4444"] := by
  refine ⟨?_, ?_, ?_, fun id x y w h c x1 y1 x2 y2 => rfl, ?_⟩
  · intro s h
    unfold finishDrawing
    rw [if_neg h]
    rfl
  · intro id x y w h c
    simp only [normalizeAnn, flipNeg_eq]
  · intro id x y w h c
    simp only [normalizeAnn, flipNeg_eq]
  · simp [finishDrawing, draw, startDrawing, emptySpaceClick, engineInit,
      pushToHistory, normalizeAnn, annId, isPointInShape, isTextAnn,
      getCursorForPosition, getResizeHandle, cursorLoop, nearHandle,
      ANNOTATION_RADIUS, HANDLE_SIZE]
    norm_num

/-- A state in mid-gesture (the hypothesis of c3 conjunct one), for the
witness. -/
def c3demoState : EngineState := { engineInit with action := Action.drawing }

/-- Witness: `c3_commit_normalization` conjunct one at `c3demoState`. -/
theorem c3_commit_normalization_witness :
    c3demoState.action ≠ Action.none ∧
    (finishDrawing c3demoState).annotations =
      c3demoState.annotations.map (fun ann =>
        if some (annId ann) = c3demoState.selectedId then normalizeAnn ann else ann) :=
  ⟨by decide, c3_commit_normalization.1 c3demoState (by decide)⟩

/-- The spec's arrow-draw scenario run on the embedded engine:
tool `'arrow'`, pointer-down at (50,50), pointer-move to (150,80),
pointer-up. -/
def arrowScenarioEnd : EngineState :=
  finishDrawing (draw (startDrawing engineInit 50 50 "a1") 150 80)

/-- C4 (evaluation of the code on the claimed scenario): the gesture
produces exactly one `Arrow` with points = [50,50,150,80], x=50, y=50,
width=100, height=30 and history length 1 — but the armed tool is NOT reset
to null: `finishDrawing` never touches `tool` (whose type in the hook has no
null member), so it remains `'arrow'`. -/
theorem c4_arrow_scenario_not_disarmed :
    arrowScenarioEnd.annotations =
      [AnnotationObject.arrow "a1" 50 50 100 30 "#ef4444" (50, 50, 150, 80)] ∧
    arrowScenarioEnd.history =
      [[AnnotationObject.arrow "a1" 50 50 100 30 "#ef4444" (50, 50, 150, 80)]] ∧
    arrowScenarioEnd.tool = Tool.arrow := by
  refine ⟨?_, ?_, ?_⟩ <;>
    simp [arrowScenarioEnd, finishDrawing, draw, startDrawing, emptySpaceClick,
      engineInit, pushToHistory, normalizeAnn, annId, isPointInShape, isTextAnn,
      getCursorForPosition, getResizeHandle, cursorLoop, nearHandle,
      ANNOTATION_RADIUS, HANDLE_SIZE] <;> norm_num

/-- C5 (evaluation of the code with an external text-element editor
focused): the pointer-down handler is independent of the caller's
editing-state signal (the hook never receives it), always calls
`preventDefault`, and still performs a full transition — here it creates a
new arrow and enters `drawing` even though an external editor is focused. -/
theorem c5_external_editor_signal_unread :
    (∀ (flag : Option String) (s : EngineState) (x y : ℚ) (id : String),
      startDrawingUnderExternalEdit flag s x y id = startDrawing s x y id) ∧
    startDrawingCallsPreventDefault engineInit 10 10 = true ∧
    (startDrawingUnderExternalEdit (some "textel-1") engineInit 10 10 "n1").action =
      Action.drawing ∧
    (startDrawingUnderExternalEdit (some "textel-1") engineInit 10 10 "n1").annotations =
      [AnnotationObject.arrow "n1" 10 10 0 0 "#ef4444" (10, 10, 10, 10)] := by
  refine ⟨fun _ _ _ _ _ => rfl, rfl, ?_, ?_⟩ <;>
    simp [startDrawingUnderExternalEdit, startDrawing, emptySpaceClick, engineInit,
      annId, isPointInShape, isTextAnn, getCursorForPosition, getResizeHandle,
      cursorLoop, nearHandle, ANNOTATION_RADIUS, HANDLE_SIZE]

/-- The state right after a text-tool click at (100,100): one empty pin
`t1`, actively editing. -/
def emptyPinState : EngineState :=
  startDrawing { engineInit with tool := Tool.text } 100 100 "t1"

/-- Re-arm the arrow tool, then pointer-down at (400,400) on empty canvas —
one of the paths that closes the active text editor. -/
def shapeToolClickEnd : EngineState :=
  startDrawing { emptyPinState with tool := Tool.arrow } 400 400 "a9"

/-- C6 (evaluation of the code on a closing path): with the empty pin `t1`
active, a pointer-down on empty canvas with the arrow tool armed clears the
active-edit id (closing the editor) but leaves the empty-trimmed-text pin in
the annotation store, contrary to the commit rule. -/
theorem c6_empty_pin_persists :
    emptyPinState.annotations = [AnnotationObject.text "t1" 100 100 "#ef4444" ""] ∧
    emptyPinState.activeAnnotationId = some "t1" ∧
    shapeToolClickEnd.activeAnnotationId = none ∧
    shapeToolClickEnd.annotations =
      [AnnotationObject.text "t1" 100 100 "#ef4444" "",
       AnnotationObject.arrow "a9" 400 400 0 0 "#ef4444" (400, 400, 400, 400)] := by
  refine ⟨?_, ?_, ?_, ?_⟩ <;>
    simp [shapeToolClickEnd, emptyPinState, startDrawing, emptySpaceClick,
      engineInit, pushToHistory, annId, isPointInShape, isTextAnn,
      getCursorForPosition, getResizeHandle, cursorLoop, nearHandle,
      ANNOTATION_RADIUS, HANDLE_SIZE] <;> norm_num

/-- C7: a point is inside a `TextPin` exactly when its Euclidean distance to
the pin's `(x, y)` is strictly below the 15-unit pin radius; in particular
the center itself is inside and a point at distance 16 is not. -/
theorem c7_textpin_hit_euclidean :
    (∀ (id c t : String) (x y px py : ℚ),
      isPointInShape (px, py) (AnnotationObject.text id x y c t) = true ↔
        Real.sqrt (((px - x) ^ 2 + (py - y) ^ 2 : ℚ) : ℝ) < 15) ∧
    isPointInShape (7, 9) (AnnotationObject.text "p1" 7 9 "#ef4444" "hi") = true ∧
    isPointInShape (16, 0) (AnnotationObject.text "p1" 0 0 "#ef4444" "hi") = false := by
  refine ⟨?_, ?_, ?_⟩
  · intro id c t x y px py
    rw [Real.sqrt_lt' (by norm_num : (0:ℝ) < 15)]
    simp only [isPointInShape, ANNOTATION_RADIUS, decide_eq_true_eq]
    constructor
    · intro hlt
      exact_mod_cast hlt
    · intro hlt
      exact_mod_cast hlt
  · norm_num [isPointInShape, ANNOTATION_RADIUS]
  · norm_num [isPointInShape, ANNOTATION_RADIUS]

/-- C8: away from every resize handle (strict 4-unit box on each axis),
`getCursorForPosition` is `'move'` exactly on `isPointInShape` and null
elsewhere; near a handle it is `'grab'` for arrow endpoints,
`'nwse-resize'` for the tl/br corners and `'nesw-resize'` for tr/bl (with
the source's tl-tr-bl-br priority when hit boxes overlap). -/
theorem c8_cursor_mapping :
    (∀ (p : ℚ × ℚ) (ann : AnnotationObject),
      (∀ kv ∈ getResizeHandle ann, nearHandle p kv.2 = false) →
      getCursorForPosition p ann =
        if isPointInShape p ann then some "move" else none) ∧
    (∀ (p : ℚ × ℚ) (id : String) (x y w h : ℚ) (c : String) (x1 y1 x2 y2 : ℚ),
      (nearHandle p (some (x1, y1)) = true ∨ nearHandle p (some (x2, y2)) = true) →
      getCursorForPosition p (AnnotationObject.arrow id x y w h c (x1, y1, x2, y2)) =
        some "grab") ∧
    (∀ (p : ℚ × ℚ) (ann : AnnotationObject), isArrowAnn ann = false →
      nearHandle p (some (annX ann, annY ann)) = true →
      getCursorForPosition p ann = some "nwse-resize") ∧
    (∀ (p : ℚ × ℚ) (id : String) (x y w h : ℚ) (c : String),
      nearHandle p (some (x + w, y + h)) = true →
      nearHandle p (some (x + w, y)) = false →
      nearHandle p (some (x, y + h)) = false →
      getCursorForPosition p (AnnotationObject.rectangle id x y w h c) =
        some "nwse-resize") ∧
    (∀ (p : ℚ × ℚ) (id : String) (x y w h : ℚ) (c : String),
      nearHandle p (some (x + w, y + h)) = true →
      nearHandle p (some (x + w, y)) = false →
      nearHandle p (some (x, y + h)) = false →
      getCursorForPosition p (AnnotationObject.circle id x y w h c) =
        some "nwse-resize") ∧
    (∀ (p : ℚ × ℚ) (id : String) (x y w h : ℚ) (c : String),
      nearHandle p (some (x + w, y)) = true →
      nearHandle p (some (x, y)) = false →
      getCursorForPosition p (AnnotationObject.rectangle id x y w h c) =
        some "nesw-resize") ∧
    (∀ (p : ℚ × ℚ) (id : String) (x y w h : ℚ) (c : String),
      nearHandle p (some (x + w, y)) = true →
      nearHandle p (some (x, y)) = false →
      getCursorForPosition p (AnnotationObject.circle id x y w h c) =
        some "nesw-resize") ∧
    (∀ (p : ℚ × ℚ) (id : String) (x y w h : ℚ) (c : String),
      nearHandle p (some (x, y + h)) = true →
      nearHandle p (some (x, y)) = false →
      nearHandle p (some (x + w, y)) = false →
      getCursorForPosition p (AnnotationObject.rectangle id x y w h c) =
        some "nesw-resize") ∧
    (∀ (p : ℚ × ℚ) (id : String) (x y w h : ℚ) (c : String),
      nearHandle p (some (x, y + h)) = true →
      nearHandle p (some (x, y)) = false →
      nearHandle p (some (x + w, y)) = false →
      getCursorForPosition p (AnnotationObject.circle id x y w h c) =
        some "nesw-resize") := by
  refine ⟨?_, ?_, ?_, ?_, ?_, ?_, ?_, ?_, ?_⟩
  · intro p ann hno
    cases ann with
    | arrow id x y w h c pts =>
        obtain ⟨x1, y1, x2, y2⟩ := pts
        simp only [getResizeHandle, List.forall_mem_cons] at hno
        obtain ⟨h1, h2, -⟩ := hno
        simp [getCursorForPosition, getResizeHandle, cursorLoop, h1, h2]
    | rectangle id x y w h c =>
        simp only [getResizeHandle, List.forall_mem_cons] at hno
        obtain ⟨h1, h2, h3, h4, -⟩ := hno
        simp [getCursorForPosition, getResizeHandle, cursorLoop, h1, h2, h3, h4]
    | circle id x y w h c =>
        simp only [getResizeHandle, List.forall_mem_cons] at hno
        obtain ⟨h1, h2, h3, h4, -⟩ := hno
        simp [getCursorForPosition, getResizeHandle, cursorLoop, h1, h2, h3, h4]
    | text id x y c t =>
        simp only [getResizeHandle, List.forall_mem_cons] at hno
        obtain ⟨h1, -⟩ := hno
        simp [getCursorForPosition, getResizeHandle, cursorLoop, h1,
          show ∀ q : ℚ × ℚ, nearHandle q none = false from fun _ => rfl]
  · intro p id x y w h c x1 y1 x2 y2 hor
    rcases hor with h1 | h2
    · simp [getCursorForPosition, getResizeHandle, cursorLoop, isArrowAnn, h1]
    · by_cases h1 : nearHandle p (some (x1, y1)) = true
      · simp [getCursorForPosition, getResizeHandle, cursorLoop, isArrowAnn, h1]
      · rw [Bool.not_eq_true] at h1
        simp [getCursorForPosition, getResizeHandle, cursorLoop, isArrowAnn, h1, h2]
  · intro p ann ha hn
    cases ann with
    | arrow id x y w h c pts => simp [isArrowAnn] at ha
    | rectangle id x y w h c =>
        simp only [annX, annY] at hn
        simp [getCursorForPosition, getResizeHandle, cursorLoop, isArrowAnn, hn]
    | circle id x y w h c =>
        simp only [annX, annY] at hn
        simp [getCursorForPosition, getResizeHandle, cursorLoop, isArrowAnn, hn]
    | text id x y c t =>
        simp only [annX, annY] at hn
        simp [getCursorForPosition, getResizeHandle, cursorLoop, isArrowAnn, hn]
  · intro p id x y w h c hbr htr hbl
    by_cases htl : nearHandle p (some (x, y)) = true
    · simp [getCursorForPosition, getResizeHandle, cursorLoop, isArrowAnn, htl]
    · rw [Bool.not_eq_true] at htl
      simp [getCursorForPosition, getResizeHandle, cursorLoop, isArrowAnn,
        htl, htr, hbl, hbr]
  · intro p id x y w h c hbr htr hbl
    by_cases htl : nearHandle p (some (x, y)) = true
    · simp [getCursorForPosition, getResizeHandle, cursorLoop, isArrowAnn, htl]
    · rw [Bool.not_eq_true] at htl
      simp [getCursorForPosition, getResizeHandle, cursorLoop, isArrowAnn,
        htl, htr, hbl, hbr]
  · intro p id x y w h c htr htl
    simp [getCursorForPosition, getResizeHandle, cursorLoop, isArrowAnn, htl, htr]
  · intro p id x y w h c htr htl
    simp [getCursorForPosition, getResizeHandle, cursorLoop, isArrowAnn, htl, htr]
  · intro p id x y w h c hbl htl htr
    simp [getCursorForPosition, getResizeHandle, cursorLoop, isArrowAnn, htl, htr, hbl]
  · intro p id x y w h c hbl htl htr
    simp [getCursorForPosition, getResizeHandle, cursorLoop, isArrowAnn, htl, htr, hbl]

/-- Witness: `c8_cursor_mapping` at concrete rectangles — a far point gets
null, a point near the br corner gets the diagonal resize cursor. -/
theorem c8_cursor_mapping_witness :
    getCursorForPosition (500, 500) (AnnotationObject.rectangle "r1" 0 0 10 10 "#ef4444") =
      none ∧
    getCursorForPosition (52, 52) (AnnotationObject.rectangle "r1" 0 0 50 50 "#ef4444") =
      some "nwse-resize" := by
  constructor
  · have h := c8_cursor_mapping.1 (500, 500)
      (AnnotationObject.rectangle "r1" 0 0 10 10 "#ef4444")
      (by norm_num [getResizeHandle, List.forall_mem_cons, nearHandle, HANDLE_SIZE])
    rw [h]
    norm_num [isPointInShape]
  · exact c8_cursor_mapping.2.2.2.1 (52, 52) "r1" 0 0 50 50 "#ef4444"
      (by norm_num [nearHandle, HANDLE_SIZE])
      (by norm_num [nearHandle, HANDLE_SIZE])
      (by norm_num [nearHandle, HANDLE_SIZE])

/-- C9: when loading the base image fails, the compositor resolves `null`
(the embedding is total — the promise executor only calls `resolve`, never
reject/throw), clears only selection and active-edit state, and leaves the
annotation list, the history and its index unchanged. -/
theorem c9_composite_failure_resolves_null (s : EngineState)
    (includeAnnotations : Bool) :
    (getAnnotatedImage s ImageLoadOutcome.failure includeAnnotations).2 = none ∧
    (getAnnotatedImage s ImageLoadOutcome.failure includeAnnotations).1.annotations =
      s.annotations ∧
    (getAnnotatedImage s ImageLoadOutcome.failure includeAnnotations).1.history =
      s.history ∧
    (getAnnotatedImage s ImageLoadOutcome.failure includeAnnotations).1.historyIndex =
      s.historyIndex ∧
    (getAnnotatedImage s ImageLoadOutcome.failure includeAnnotations).1.selectedId =
      none ∧
    (getAnnotatedImage s ImageLoadOutcome.failure includeAnnotations).1.activeAnnotationId =
      none :=
  ⟨rfl, rfl, rfl, rfl, rfl, rfl⟩

/-- C10: an arrow whose endpoints coincide (as every fresh arrow does at
pointer-down) is hit by no query point at all — the JavaScript
perpendicular-distance formula divides zero by the zero segment length,
yielding NaN, and `NaN < 5` is false — and the test never throws. -/
theorem c10_degenerate_arrow_never_hit (id : String) (x y w h : ℚ) (c : String)
    (sx sy px py : ℚ) :
    isPointInShape (px, py) (AnnotationObject.arrow id x y w h c (sx, sy, sx, sy)) =
      false := by
  simp [isPointInShape, sub_self]

end Weaver
